import Mathlib

/-!
# Verification of the trading-bot core (regime detector and backtest engine)

This file gives a shallow embedding, over `ℚ`, of the algorithmic core of the
`trading-bot-dashboard` repository:

* `RegimeDetector.detect_regime` and `RegimeDetector.get_current_regime`
  (`src/regime_detector.py`),
* the strategy signal generators (`src/strategies.py`), and
* `Backtester.run` (`src/backtester.py`),

together with theorems settling the stated behavioural claims.

Modelling conventions:

* Prices, indicator values, capital and returns are rationals (`ℚ`); the
  source works with Python/pandas floats.
* An undefined (NaN / None) indicator value is `Option.none`; pandas
  comparisons against NaN evaluate to `False`, which the `nan*` helpers
  reproduce (the detector coerces its indicator columns with
  `pd.to_numeric(..., errors="coerce")`, so comparisons never raise there).
* Indicator columns produced by the external `pandas_ta` library are inputs
  of the model; what the embedding keeps from the library is its documented
  gate that an indicator returns `None` whenever the input series is shorter
  than the indicator window (`verify_series`), exactly the case the
  repository itself guards against for `ta.adx`.
* Timestamps are integers; `round(x, 2)` on the Python side is modelled by
  `round2` (exact rational rounding at two decimals; the float tie-breaking
  of Python's `round` is immaterial to every statement below).
-/

/-- Market regime label, as written into the `regime` column by
`RegimeDetector.detect_regime`. -/
inductive Regime where
  | Unknown
  | Sideways
  | Bull
  | Bear
deriving DecidableEq, Repr

/-- `x < y` on possibly-undefined values, with pandas NaN semantics: any
comparison involving an undefined value is `false`. -/
def nanLt (x y : Option ℚ) : Bool :=
  match x, y with
  | some a, some b => decide (a < b)
  | _, _ => false

/-- `x > y` with pandas NaN semantics. -/
def nanGt (x y : Option ℚ) : Bool :=
  match x, y with
  | some a, some b => decide (b < a)
  | _, _ => false

/-- `x ≤ y` with pandas NaN semantics. -/
def nanLe (x y : Option ℚ) : Bool :=
  match x, y with
  | some a, some b => decide (a ≤ b)
  | _, _ => false

/-- `x ≥ y` with pandas NaN semantics. -/
def nanGe (x y : Option ℚ) : Bool :=
  match x, y with
  | some a, some b => decide (b ≤ a)
  | _, _ => false

/-- `x - y` where either operand may be NaN (NaN propagates). -/
def nanSub (x y : Option ℚ) : Option ℚ :=
  match x, y with
  | some a, some b => some (a - b)
  | _, _ => none

/-- One bar of the detector's frame after the indicator columns `sma_200`
(`ta.sma(close, 200)`) and `adx` (`ta.adx(..., 14)`, coerced to numeric)
have been attached; undefined (warm-up / missing) values are `none`. -/
structure BarInd where
  time : ℤ
  close : ℚ
  sma200 : Option ℚ
  adx : Option ℚ
deriving DecidableEq, Repr

/-- Per-bar regime assignment of `RegimeDetector.detect_regime`: the
`regime` column starts at `"Unknown"` and is then overwritten, in order, by
the sideways mask `has_adx & (adx < 25)`, the bull mask
`has_sma & has_adx & (close > sma_200) & (adx >= 25)` and the bear mask
`has_sma & has_adx & (close < sma_200) & (adx >= 25)`. -/
def classifyBar (close : ℚ) (sma200 adx : Option ℚ) : Regime :=
  let r0 := Regime.Unknown
  let r1 := if adx.isSome && nanLt adx (some 25) then Regime.Sideways else r0
  let r2 := if sma200.isSome && adx.isSome && nanGt (some close) sma200 &&
      nanGe adx (some 25) then Regime.Bull else r1
  let r3 := if sma200.isSome && adx.isSome && nanLt (some close) sma200 &&
      nanGe adx (some 25) then Regime.Bear else r2
  r3

/-- `RegimeDetector.detect_regime`: the masks are computed row-wise, so the
`regime` column is the per-row classification applied to every bar. -/
def detectRegime (df : List BarInd) : List Regime :=
  df.map (fun b => classifyBar b.close b.sma200 b.adx)

/-- C2: whenever ADX is defined and strictly below 25, `detect_regime`
labels the bar Sideways, whatever the SMA-200 column holds (defined or not,
above or below the close): the bull/bear masks both require `adx >= 25` and
cannot overwrite the sideways assignment. -/
theorem c2_sideways_of_low_adx (df : List BarInd) (i : ℕ) (b : BarInd) (a : ℚ)
    (hb : df[i]? = some b) (ha : b.adx = some a) (hlt : a < 25) :
    (detectRegime df)[i]? = some Regime.Sideways := by
  have hmap : (detectRegime df)[i]? =
      (df[i]?).map (fun b => classifyBar b.close b.sma200 b.adx) := by
    simp [detectRegime]
  rw [hmap, hb]
  have h25 : ¬ (25 : ℚ) ≤ a := not_le.mpr hlt
  simp [classifyBar, ha, nanLt, nanGe, nanGt, hlt, h25]

/-- Witness for C2 at a concrete bar: ADX = 10 < 25, SMA-200 defined and
below the close. -/
theorem c2_sideways_of_low_adx_witness :
    (detectRegime [⟨0, 50, some 40, some 10⟩])[0]? = some Regime.Sideways :=
  c2_sideways_of_low_adx [⟨0, 50, some 40, some 10⟩] 0 ⟨0, 50, some 40, some 10⟩ 10
    rfl rfl (by norm_num)

/-- C1 counterexample: a bar whose ADX is defined and below 25 but whose
SMA-200 is undefined is labeled Sideways by `detect_regime`, not Unknown —
the sideways mask `has_adx & (adx < 25)` does not require SMA-200 to be
defined. -/
theorem c1_unknown_counterexample :
    (detectRegime [⟨0, 100, none, some 10⟩])[0]? = some Regime.Sideways ∧
      (detectRegime [⟨0, 100, none, some 10⟩])[0]? ≠ some Regime.Unknown := by
  constructor
  · decide
  · decide

/-- C1 amended: Unknown is assigned exactly on the bars the masks leave
untouched: every bar with undefined ADX is Unknown, and a bar with defined
ADX is Unknown only when ADX ≥ 25 and SMA-200 is undefined (or the close
ties the SMA); in particular a bar with defined ADX below 25 and undefined
SMA-200 is labeled Sideways, not Unknown. -/
theorem c1_unknown_amended :
    (∀ close : ℚ, ∀ sma : Option ℚ, classifyBar close sma none = Regime.Unknown) ∧
      (∀ close a : ℚ, 25 ≤ a → classifyBar close none (some a) = Regime.Unknown) ∧
      (∀ close a : ℚ, a < 25 → classifyBar close none (some a) = Regime.Sideways) := by
  refine ⟨?_, ?_, ?_⟩
  · intro close sma
    simp [classifyBar, nanLt, nanGe, nanGt]
  · intro close a h
    have : ¬ a < 25 := not_lt.mpr h
    simp [classifyBar, nanLt, nanGe, nanGt, this]
  · intro close a h
    simp [classifyBar, nanLt, nanGe, nanGt, h]

/-- Witness for the amended C1 at concrete bars. -/
theorem c1_unknown_amended_witness :
    classifyBar 100 (some 90) none = Regime.Unknown ∧
      classifyBar 100 none (some 30) = Regime.Unknown ∧
      classifyBar 100 none (some 24) = Regime.Sideways :=
  ⟨c1_unknown_amended.1 100 (some 90),
   c1_unknown_amended.2.1 100 30 (by norm_num),
   c1_unknown_amended.2.2 100 24 (by norm_num)⟩

/-- One row of the signal-annotated frame handed to `Backtester.run`
(`df_signals`): timestamp index, the strategy's `signal` column
(1 buy, -1 sell, 0 none) and the `close` price. -/
structure Row where
  time : ℤ
  signal : ℤ
  close : ℚ
deriving DecidableEq, Repr

/-- One record of `Backtester.trades`; `forced` is the presence of the
`type: Force Close` tag (only the end-of-window close sets it). The entry
time is `Option` because the engine initialises `entry_time = None`. -/
structure Trade where
  entryTime : Option ℤ
  exitTime : ℤ
  entryPrice : ℚ
  exitPrice : ℚ
  ret : ℚ
  forced : Bool
deriving DecidableEq, Repr

/-- The loop state of `Backtester.run`: `position` (0 out, 1 long),
`entry_price`, `entry_time`, `current_capital`, and the accumulated
`trades` and `equity_curve` lists. -/
structure BTState where
  position : ℤ
  entryPrice : ℚ
  entryTime : Option ℤ
  capital : ℚ
  trades : List Trade
  equity : List ℚ
deriving DecidableEq, Repr

/-- The round-trip return computed at every position close:
`effective_entry = entry * (1 + commission)`,
`effective_exit = exit * (1 - commission)`,
`(effective_exit - effective_entry) / effective_entry`. -/
def tradeReturn (entry exit c : ℚ) : ℚ :=
  let effectiveEntry := entry * (1 + c)
  let effectiveExit := exit * (1 - c)
  (effectiveExit - effectiveEntry) / effectiveEntry

/-- One iteration of the `for index, row in df_signals.iterrows()` loop of
`Backtester.run`: the buy branch (`signal == 1 and position == 0`), the
sell branch (`signal == -1 and position == 1`, which books the trade and
compounds the capital), then the per-bar equity point (mark-to-market while
long, cash otherwise). -/
def stepBar (c : ℚ) (s : BTState) (row : Row) : BTState :=
  let s1 :=
    if row.signal = 1 ∧ s.position = 0 then
      { s with position := 1, entryPrice := row.close, entryTime := some row.time }
    else if row.signal = -1 ∧ s.position = 1 then
      let r := tradeReturn s.entryPrice row.close c
      { s with position := 0,
               capital := s.capital * (1 + r),
               trades := s.trades ++
                 [⟨s.entryTime, row.time, s.entryPrice, row.close, r, false⟩] }
    else s
  let equityPoint :=
    if s1.position = 1 then
      s1.capital * (1 + (row.close - s1.entryPrice) / s1.entryPrice)
    else s1.capital
  { s1 with equity := s1.equity ++ [equityPoint] }

/-- Replace the last element of a list, as `self.equity_curve[-1] = v`
guarded by `if self.equity_curve:`. -/
def setLast (l : List ℚ) (v : ℚ) : List ℚ :=
  if l = [] then l else l.dropLast ++ [v]

/-- The end-of-run block of `Backtester.run`: if still long and the window
is nonempty, close at the last row of `df_signals` with the same commission
formula, append a trade tagged `Force Close`, and overwrite the final
equity point with the realized capital. -/
def forceClose (c : ℚ) (rows : List Row) (s : BTState) : BTState :=
  if s.position = 1 then
    match rows.getLast? with
    | none => s
    | some last =>
      let r := tradeReturn s.entryPrice last.close c
      let newCapital := s.capital * (1 + r)
      { s with capital := newCapital,
               trades := s.trades ++
                 [⟨s.entryTime, last.time, s.entryPrice, last.close, r, true⟩],
               equity := setLast s.equity newCapital }
  else s

/-- The inclusive start/end date filter applied to the signal-annotated
frame before the simulation loop. -/
def filterWindow (startDate endDate : Option ℤ) (rows : List Row) : List Row :=
  let r1 := match startDate with
    | some sd => rows.filter (fun r => sd ≤ r.time)
    | none => rows
  match endDate with
  | some ed => r1.filter (fun r => r.time ≤ ed)
  | none => r1

/-- The initial loop state of `Backtester.run`: out of the market, zero
entry price, no entry time, full initial capital, fresh ledgers. -/
def initState (cap0 : ℚ) : BTState :=
  ⟨0, 0, none, cap0, [], []⟩

/-- The simulation loop: fold `stepBar` over the (already filtered)
signal rows. -/
def processBars (c : ℚ) (s : BTState) (rows : List Row) : BTState :=
  rows.foldl (stepBar c) s

/-- `Backtester.run` up to the metrics block: filter the window, run the
loop from the initial state, then force-close any open position. -/
def btRun (startDate endDate : Option ℤ) (c cap0 : ℚ) (rows : List Row) : BTState :=
  let dfSignals := filterWindow startDate endDate rows
  forceClose c dfSignals (processBars c (initState cap0) dfSignals)

/-- Exact rational rounding at two decimals, modelling Python's
`round(x, 2)` in the results dictionary (Python rounds binary floats with
banker's tie-breaking; no statement below depends on tie behaviour). -/
def round2 (q : ℚ) : ℚ := (round (q * 100) : ℤ) / 100

/-- The `win_rate` computed by `Backtester.run`:
`len(winning_trades) / num_trades * 100` when there are trades, `0.0`
otherwise (`winning_trades` are those with strictly positive return). -/
def winRateOf (s : BTState) : ℚ :=
  if 0 < s.trades.length then
    (((s.trades.filter (fun t => 0 < t.ret)).length : ℚ) / s.trades.length) * 100
  else 0

/-- The metrics dictionary built at the end of `Backtester.run`. -/
structure BTResults where
  totalReturn : ℚ
  numTrades : ℕ
  winRate : ℚ
  finalCapital : ℚ
deriving DecidableEq, Repr

/-- `self.results`: total return percentage, trade count, win rate and
final capital, each numeric entry rounded at two decimals. -/
def mkResults (cap0 : ℚ) (s : BTState) : BTResults :=
  { totalReturn := round2 ((s.capital - cap0) / cap0 * 100)
    numTrades := s.trades.length
    winRate := round2 (winRateOf s)
    finalCapital := round2 s.capital }

/-- A raw OHLCV bar (only the fields the modelled strategies read). -/
structure Bar where
  time : ℤ
  close : ℚ
deriving DecidableEq, Repr

/-- `BuyAndHold.generate_signals`: `df["signal"] = 1` on every bar. -/
def buyAndHoldSignals (bars : List Bar) : List Row :=
  bars.map (fun b => ⟨b.time, 1, b.close⟩)

/-- The buy branch of the loop: a buy signal while out of the market opens
the position at the bar close and marks equity at entry (the mark-to-market
change at the entry bar itself is zero). -/
theorem stepBar_buy_eq (c : ℚ) (s : BTState) (row : Row)
    (h1 : row.signal = 1) (h2 : s.position = 0) :
    stepBar c s row =
      { s with position := 1, entryPrice := row.close, entryTime := some row.time,
               equity := s.equity ++ [s.capital] } := by
  simp [stepBar, h1, h2]

/-- The sell branch of the loop: a sell signal while long books the trade,
compounds the capital and marks equity at the realized capital. -/
theorem stepBar_sell_eq (c : ℚ) (s : BTState) (row : Row)
    (h1 : row.signal = -1) (h2 : s.position = 1) :
    stepBar c s row =
      { s with position := 0,
               capital := s.capital * (1 + tradeReturn s.entryPrice row.close c),
               trades := s.trades ++
                 [⟨s.entryTime, row.time, s.entryPrice, row.close,
                   tradeReturn s.entryPrice row.close c, false⟩],
               equity := s.equity ++
                 [s.capital * (1 + tradeReturn s.entryPrice row.close c)] } := by
  have hne : ¬ (row.signal = 1 ∧ s.position = 0) := by
    rintro ⟨ha, _⟩; rw [h1] at ha; exact absurd ha (by decide)
  simp [stepBar, hne, h1, h2]

/-- Any other signal/position combination leaves the whole state unchanged
except for the appended equity point. -/
theorem stepBar_skip_eq (c : ℚ) (s : BTState) (row : Row)
    (h1 : ¬ (row.signal = 1 ∧ s.position = 0))
    (h2 : ¬ (row.signal = -1 ∧ s.position = 1)) :
    stepBar c s row =
      { s with equity := s.equity ++
          [if s.position = 1 then
             s.capital * (1 + (row.close - s.entryPrice) / s.entryPrice)
           else s.capital] } := by
  simp [stepBar, h1, h2]

theorem processBars_nil (c : ℚ) (s : BTState) : processBars c s [] = s := rfl

theorem processBars_cons (c : ℚ) (s : BTState) (r : Row) (rs : List Row) :
    processBars c s (r :: rs) = processBars c (stepBar c s r) rs := rfl

/-- Invariant preservation along the simulation loop. -/
theorem processBars_inv (c : ℚ) (P : BTState → Prop)
    (hstep : ∀ s row, P s → P (stepBar c s row)) :
    ∀ (rows : List Row) (s : BTState), P s → P (processBars c s rows)
  | [], _, h => h
  | r :: rs, s, h =>
      processBars_inv c P hstep rs (stepBar c s r) (hstep s r h)

/-- The force-close block when the engine is long and the window is
nonempty: one trade tagged forced is appended, capital compounds with the
same commission formula, and the last equity point is overwritten. -/
theorem forceClose_eq (c : ℚ) (rows : List Row) (s : BTState) (last : Row)
    (h2 : s.position = 1) (hl : rows.getLast? = some last) :
    forceClose c rows s =
      { s with capital := s.capital * (1 + tradeReturn s.entryPrice last.close c),
               trades := s.trades ++
                 [⟨s.entryTime, last.time, s.entryPrice, last.close,
                   tradeReturn s.entryPrice last.close c, true⟩],
               equity := setLast s.equity
                 (s.capital * (1 + tradeReturn s.entryPrice last.close c)) } := by
  simp [forceClose, h2, hl]

/-- The force-close block is a no-op when the engine is not long. -/
theorem forceClose_not_long (c : ℚ) (rows : List Row) (s : BTState)
    (h : ¬ s.position = 1) : forceClose c rows s = s := by
  simp [forceClose, h]

/-- The force-close block is a no-op on an empty window. -/
theorem forceClose_last_none (c : ℚ) (rows : List Row) (s : BTState)
    (hl : rows.getLast? = none) : forceClose c rows s = s := by
  simp [forceClose, hl]

/-- Every trade recorded during the loop carries the commission-adjusted
round-trip return of its own recorded entry and exit prices. -/
theorem btRun_trades_ret (sd ed : Option ℤ) (c cap0 : ℚ) (rows : List Row) :
    ∀ t ∈ (btRun sd ed c cap0 rows).trades,
      t.ret = tradeReturn t.entryPrice t.exitPrice c := by
  have hloop : ∀ t ∈ (processBars c (initState cap0) (filterWindow sd ed rows)).trades,
      t.ret = tradeReturn t.entryPrice t.exitPrice c := by
    refine processBars_inv c
      (fun s => ∀ t ∈ s.trades, t.ret = tradeReturn t.entryPrice t.exitPrice c)
      ?_ _ _ ?_
    · intro s row h
      by_cases hb : row.signal = 1 ∧ s.position = 0
      · rw [stepBar_buy_eq c s row hb.1 hb.2]; simpa using h
      · by_cases hs : row.signal = -1 ∧ s.position = 1
        · rw [stepBar_sell_eq c s row hs.1 hs.2]
          intro t ht
          simp only [List.mem_append, List.mem_singleton] at ht
          rcases ht with h1 | h1
          · exact h t h1
          · subst h1; rfl
        · rw [stepBar_skip_eq c s row hb hs]; simpa using h
    · intro t ht
      simp [initState] at ht
  intro t ht
  simp only [btRun] at ht
  by_cases hp : (processBars c (initState cap0) (filterWindow sd ed rows)).position = 1
  · cases hl : (filterWindow sd ed rows).getLast? with
    | none => rw [forceClose_last_none c _ _ hl] at ht; exact hloop t ht
    | some last =>
      rw [forceClose_eq c _ _ last hp hl] at ht
      simp only [List.mem_append, List.mem_singleton] at ht
      rcases ht with h1 | h1
      · exact hloop t h1
      · subst h1; rfl
  · rw [forceClose_not_long c _ _ hp] at ht; exact hloop t ht

/-- C3: every trade in the ledger of a run records
`realized_return = (P2(1-c) - P1(1+c)) / (P1(1+c))` of its own entry and
exit prices, and at each close (sell while long, and the forced close) the
capital is multiplied by exactly `1 + realized_return`. -/
theorem c3_trade_return_formula :
    (∀ (sd ed : Option ℤ) (c cap0 : ℚ) (rows : List Row),
      ∀ t ∈ (btRun sd ed c cap0 rows).trades,
        t.ret = (t.exitPrice * (1 - c) - t.entryPrice * (1 + c)) /
          (t.entryPrice * (1 + c))) ∧
      (∀ (c : ℚ) (s : BTState) (row : Row), row.signal = -1 → s.position = 1 →
        (stepBar c s row).capital =
          s.capital * (1 + tradeReturn s.entryPrice row.close c)) ∧
      (∀ (c : ℚ) (rows : List Row) (s : BTState) (last : Row),
        s.position = 1 → rows.getLast? = some last →
        (forceClose c rows s).capital =
          s.capital * (1 + tradeReturn s.entryPrice last.close c)) := by
  refine ⟨?_, ?_, ?_⟩
  · intro sd ed c cap0 rows t ht
    have h := btRun_trades_ret sd ed c cap0 rows t ht
    simpa [tradeReturn] using h
  · intro c s row h1 h2
    rw [stepBar_sell_eq c s row h1 h2]
  · intro c rows s last h2 hl
    rw [forceClose_eq c rows s last h2 hl]

/-- Witness for C3: the single Buy-at-3 / Sell-at-4 round trip with zero
commission records return 1/3, and both closing paths multiply capital by
`1 + return`. -/
theorem c3_trade_return_formula_witness :
    ((⟨some 0, 1, 3, 4, 1/3, false⟩ : Trade) ∈
        (btRun none none 0 1000 [⟨0, 1, 3⟩, ⟨1, -1, 4⟩]).trades ∧
      (⟨some 0, 1, 3, 4, 1/3, false⟩ : Trade).ret =
        ((4 : ℚ) * (1 - 0) - 3 * (1 + 0)) / (3 * (1 + 0))) ∧
      (stepBar 0 ⟨1, 3, some 0, 1000, [], []⟩ ⟨1, -1, 4⟩).capital =
        1000 * (1 + tradeReturn 3 4 0) ∧
      (forceClose 0 [⟨0, 1, 3⟩, ⟨1, 0, 4⟩] ⟨1, 3, some 0, 1000, [], []⟩).capital =
        1000 * (1 + tradeReturn 3 4 0) := by
  have htr : (btRun none none 0 1000 [⟨0, 1, 3⟩, ⟨1, -1, 4⟩]).trades =
      [⟨some 0, 1, 3, 4, 1/3, false⟩] := by
    norm_num [btRun, filterWindow, processBars, List.foldl, stepBar, tradeReturn,
      forceClose, initState, setLast]
  have hmem : (⟨some 0, 1, 3, 4, 1/3, false⟩ : Trade) ∈
      (btRun none none 0 1000 [⟨0, 1, 3⟩, ⟨1, -1, 4⟩]).trades := by
    rw [htr]; exact List.mem_singleton.mpr rfl
  exact ⟨⟨hmem,
    c3_trade_return_formula.1 none none 0 1000 [⟨0, 1, 3⟩, ⟨1, -1, 4⟩]
      ⟨some 0, 1, 3, 4, 1/3, false⟩ hmem⟩,
    c3_trade_return_formula.2.1 0 ⟨1, 3, some 0, 1000, [], []⟩ ⟨1, -1, 4⟩ rfl rfl,
    c3_trade_return_formula.2.2 0 [⟨0, 1, 3⟩, ⟨1, 0, 4⟩] ⟨1, 3, some 0, 1000, [], []⟩
      ⟨1, 0, 4⟩ rfl rfl⟩

/-- C8: the engine is a two-state flat/long machine. A buy signal while
long changes nothing (no state change, no trade, entry data and capital
untouched); a sell signal while flat changes nothing (no trade, no capital
change); and from the initial state every reachable loop state has
`position` equal to 0 or 1 — at most one open position, never short. -/
theorem c8_state_machine :
    (∀ (c : ℚ) (s : BTState) (row : Row), row.signal = 1 → s.position = 1 →
        (stepBar c s row).position = 1 ∧
        (stepBar c s row).entryPrice = s.entryPrice ∧
        (stepBar c s row).entryTime = s.entryTime ∧
        (stepBar c s row).trades = s.trades ∧
        (stepBar c s row).capital = s.capital) ∧
      (∀ (c : ℚ) (s : BTState) (row : Row), row.signal = -1 → s.position = 0 →
        (stepBar c s row).position = 0 ∧
        (stepBar c s row).entryPrice = s.entryPrice ∧
        (stepBar c s row).entryTime = s.entryTime ∧
        (stepBar c s row).trades = s.trades ∧
        (stepBar c s row).capital = s.capital) ∧
      (∀ (c cap0 : ℚ) (rows : List Row),
        (processBars c (initState cap0) rows).position = 0 ∨
        (processBars c (initState cap0) rows).position = 1) := by
  refine ⟨?_, ?_, ?_⟩
  · intro c s row h1 h2
    have hb : ¬ (row.signal = 1 ∧ s.position = 0) := by
      rintro ⟨_, hp⟩; rw [h2] at hp; exact absurd hp (by decide)
    have hs : ¬ (row.signal = -1 ∧ s.position = 1) := by
      rintro ⟨ha, _⟩; rw [h1] at ha; exact absurd ha (by decide)
    rw [stepBar_skip_eq c s row hb hs]
    exact ⟨h2, rfl, rfl, rfl, rfl⟩
  · intro c s row h1 h2
    have hb : ¬ (row.signal = 1 ∧ s.position = 0) := by
      rintro ⟨ha, _⟩; rw [h1] at ha; exact absurd ha (by decide)
    have hs : ¬ (row.signal = -1 ∧ s.position = 1) := by
      rintro ⟨_, hp⟩; rw [h2] at hp; exact absurd hp (by decide)
    rw [stepBar_skip_eq c s row hb hs]
    exact ⟨h2, rfl, rfl, rfl, rfl⟩
  · intro c cap0 rows
    refine processBars_inv c
      (fun s => s.position = 0 ∨ s.position = 1) ?_ rows (initState cap0) (Or.inl rfl)
    intro s row h
    by_cases hb : row.signal = 1 ∧ s.position = 0
    · rw [stepBar_buy_eq c s row hb.1 hb.2]; exact Or.inr rfl
    · by_cases hs : row.signal = -1 ∧ s.position = 1
      · rw [stepBar_sell_eq c s row hs.1 hs.2]; exact Or.inl rfl
      · rw [stepBar_skip_eq c s row hb hs]; exact h

/-- Witness for C8: a buy while long and a sell while flat leave the
concrete state untouched, and a concrete two-bar run ends flat or long. -/
theorem c8_state_machine_witness :
    ((stepBar 0 ⟨1, 3, some 0, 1000, [], []⟩ ⟨1, 1, 5⟩).position = 1 ∧
        (stepBar 0 ⟨1, 3, some 0, 1000, [], []⟩ ⟨1, 1, 5⟩).entryPrice = 3 ∧
        (stepBar 0 ⟨1, 3, some 0, 1000, [], []⟩ ⟨1, 1, 5⟩).entryTime = some 0 ∧
        (stepBar 0 ⟨1, 3, some 0, 1000, [], []⟩ ⟨1, 1, 5⟩).trades = [] ∧
        (stepBar 0 ⟨1, 3, some 0, 1000, [], []⟩ ⟨1, 1, 5⟩).capital = 1000) ∧
      ((stepBar 0 ⟨0, 0, none, 1000, [], []⟩ ⟨1, -1, 5⟩).position = 0 ∧
        (stepBar 0 ⟨0, 0, none, 1000, [], []⟩ ⟨1, -1, 5⟩).entryPrice = 0 ∧
        (stepBar 0 ⟨0, 0, none, 1000, [], []⟩ ⟨1, -1, 5⟩).entryTime = none ∧
        (stepBar 0 ⟨0, 0, none, 1000, [], []⟩ ⟨1, -1, 5⟩).trades = [] ∧
        (stepBar 0 ⟨0, 0, none, 1000, [], []⟩ ⟨1, -1, 5⟩).capital = 1000) ∧
      ((processBars 0 (initState 1000) [⟨0, 1, 3⟩, ⟨1, -1, 4⟩]).position = 0 ∨
        (processBars 0 (initState 1000) [⟨0, 1, 3⟩, ⟨1, -1, 4⟩]).position = 1) := by
  have h1 := c8_state_machine.1 0 ⟨1, 3, some 0, 1000, [], []⟩ ⟨1, 1, 5⟩ rfl rfl
  have h2 := c8_state_machine.2.1 0 ⟨0, 0, none, 1000, [], []⟩ ⟨1, -1, 5⟩ rfl rfl
  have h3 := c8_state_machine.2.2 0 1000 [⟨0, 1, 3⟩, ⟨1, -1, 4⟩]
  exact ⟨h1, h2, h3⟩

/-- The capital is, at every point, the initial capital compounded through
the booked trade returns. -/
theorem btRun_capital_prod (sd ed : Option ℤ) (c cap0 : ℚ) (rows : List Row) :
    (btRun sd ed c cap0 rows).capital =
      cap0 * ((btRun sd ed c cap0 rows).trades.map (fun t => 1 + t.ret)).prod := by
  have hstep : ∀ s row,
      s.capital = cap0 * (s.trades.map (fun t => 1 + t.ret)).prod →
      (stepBar c s row).capital =
        cap0 * ((stepBar c s row).trades.map (fun t => 1 + t.ret)).prod := by
    intro s row h
    by_cases hb : row.signal = 1 ∧ s.position = 0
    · rw [stepBar_buy_eq c s row hb.1 hb.2]; exact h
    · by_cases hs : row.signal = -1 ∧ s.position = 1
      · rw [stepBar_sell_eq c s row hs.1 hs.2]
        simp only [List.map_append, List.prod_append, List.map_cons, List.map_nil,
          List.prod_cons, List.prod_nil]
        rw [h]; ring
      · rw [stepBar_skip_eq c s row hb hs]; exact h
  have hloop : (processBars c (initState cap0) (filterWindow sd ed rows)).capital =
      cap0 * ((processBars c (initState cap0) (filterWindow sd ed rows)).trades.map
        (fun t => 1 + t.ret)).prod := by
    refine processBars_inv c
      (fun s => s.capital = cap0 * (s.trades.map (fun t => 1 + t.ret)).prod)
      hstep _ _ ?_
    simp [initState]
  simp only [btRun]
  by_cases hp : (processBars c (initState cap0) (filterWindow sd ed rows)).position = 1
  · cases hl : (filterWindow sd ed rows).getLast? with
    | none => rw [forceClose_last_none c _ _ hl]; exact hloop
    | some last =>
      rw [forceClose_eq c _ _ last hp hl]
      simp only [List.map_append, List.prod_append, List.map_cons, List.map_nil,
        List.prod_cons, List.prod_nil]
      rw [hloop]; ring
  · rw [forceClose_not_long c _ _ hp]; exact hloop

/-- C10 counterexample: for the Buy-at-3 / Sell-at-4 round trip with zero
commission and initial capital 10000, the *reported* final capital is
`round(40000/3, 2) = 13333.33`, which is not the exact compounded product
`40000/3`: the results dictionary rounds at two decimals. -/
theorem c10_reported_capital_counterexample :
    (mkResults 10000 (btRun none none 0 10000 [⟨0, 1, 3⟩, ⟨1, -1, 4⟩])).finalCapital ≠
      10000 * ((btRun none none 0 10000 [⟨0, 1, 3⟩, ⟨1, -1, 4⟩]).trades.map
        (fun t => 1 + t.ret)).prod := by
  have hrun : btRun none none 0 10000 [⟨0, 1, 3⟩, ⟨1, -1, 4⟩] =
      ⟨0, 3, some 0, 40000/3, [⟨some 0, 1, 3, 4, 1/3, false⟩], [10000, 40000/3]⟩ := by
    norm_num [btRun, filterWindow, processBars, List.foldl, stepBar, tradeReturn,
      forceClose, initState, setLast]
  rw [hrun]
  simp only [mkResults, round2, List.map_cons, List.map_nil, List.prod_cons,
    List.prod_nil]
  intro h
  have h2 : ((round ((40000 : ℚ) / 3 * 100) : ℤ) : ℚ) * 3 = 4000000 := by
    field_simp at h
    linarith
  have h3 : (round ((40000 : ℚ) / 3 * 100) : ℤ) * 3 = 4000000 := by
    exact_mod_cast h2
  omega

/-- C10 amended: the engine's (unrounded) final capital is exactly the
initial capital times the product of `1 + return` over every booked trade,
forced close included; the results dictionary reports this value — and the
total return percentage derived from it — rounded at two decimals, so the
reported metrics are fully determined by the trade ledger and the initial
capital. -/
theorem c10_capital_product_amended (sd ed : Option ℤ) (c cap0 : ℚ) (rows : List Row) :
    (btRun sd ed c cap0 rows).capital =
      cap0 * ((btRun sd ed c cap0 rows).trades.map (fun t => 1 + t.ret)).prod ∧
      (mkResults cap0 (btRun sd ed c cap0 rows)).finalCapital =
        round2 ((btRun sd ed c cap0 rows).capital) ∧
      (mkResults cap0 (btRun sd ed c cap0 rows)).totalReturn =
        round2 (((btRun sd ed c cap0 rows).capital - cap0) / cap0 * 100) :=
  ⟨btRun_capital_prod sd ed c cap0 rows, rfl, rfl⟩

/-- No trade recorded during the simulation loop carries the forced tag:
only the end-of-run block appends one. -/
theorem loop_trades_not_forced (c cap0 : ℚ) (rows : List Row) :
    ∀ t ∈ (processBars c (initState cap0) rows).trades, t.forced = false := by
  refine processBars_inv c (fun s => ∀ t ∈ s.trades, t.forced = false) ?_ _ _ ?_
  · intro s row h
    by_cases hb : row.signal = 1 ∧ s.position = 0
    · rw [stepBar_buy_eq c s row hb.1 hb.2]; simpa using h
    · by_cases hs : row.signal = -1 ∧ s.position = 1
      · rw [stepBar_sell_eq c s row hs.1 hs.2]
        intro t ht
        simp only [List.mem_append, List.mem_singleton] at ht
        rcases ht with h1 | h1
        · exact h t h1
        · subst h1; rfl
      · rw [stepBar_skip_eq c s row hb hs]; simpa using h
  · intro t ht
    simp [initState] at ht

/-- C4: if the simulation window is nonempty and the engine is still long
after its last bar, the run appends exactly one trade tagged forced-close,
closed at the last bar of the *filtered* window with the same commission
formula, and the final equity point is overwritten with the realized
capital. -/
theorem c4_forced_close (sd ed : Option ℤ) (c cap0 : ℚ) (rows : List Row) (last : Row)
    (hl : (filterWindow sd ed rows).getLast? = some last)
    (hp : (processBars c (initState cap0) (filterWindow sd ed rows)).position = 1) :
    (btRun sd ed c cap0 rows).trades =
      (processBars c (initState cap0) (filterWindow sd ed rows)).trades ++
        [⟨(processBars c (initState cap0) (filterWindow sd ed rows)).entryTime,
          last.time,
          (processBars c (initState cap0) (filterWindow sd ed rows)).entryPrice,
          last.close,
          tradeReturn (processBars c (initState cap0) (filterWindow sd ed rows)).entryPrice
            last.close c, true⟩] ∧
      (btRun sd ed c cap0 rows).trades.countP (fun t => t.forced) = 1 ∧
      (btRun sd ed c cap0 rows).capital =
        (processBars c (initState cap0) (filterWindow sd ed rows)).capital *
          (1 + tradeReturn
            (processBars c (initState cap0) (filterWindow sd ed rows)).entryPrice
            last.close c) ∧
      (btRun sd ed c cap0 rows).equity =
        setLast (processBars c (initState cap0) (filterWindow sd ed rows)).equity
          ((btRun sd ed c cap0 rows).capital) := by
  have hnf := loop_trades_not_forced c cap0 (filterWindow sd ed rows)
  simp only [btRun]
  rw [forceClose_eq c (filterWindow sd ed rows)
    (processBars c (initState cap0) (filterWindow sd ed rows)) last hp hl]
  refine ⟨rfl, ?_, rfl, rfl⟩
  rw [List.countP_append]
  have h0 : (processBars c (initState cap0) (filterWindow sd ed rows)).trades.countP
      (fun t => t.forced) = 0 := by
    refine List.countP_eq_zero.mpr ?_
    intro t ht
    simp [hnf t ht]
  rw [h0]
  simp [List.countP_cons]

/-- Witness for C4: a buy bar followed by a signal-free bar leaves the
engine long, and the run force-closes at the second bar. -/
theorem c4_forced_close_witness :
    ((processBars 0 (initState 1000) (filterWindow none none
        [⟨0, 1, 100⟩, ⟨1, 0, 110⟩])).position = 1) ∧
      (btRun none none 0 1000 [⟨0, 1, 100⟩, ⟨1, 0, 110⟩]).trades =
        (processBars 0 (initState 1000) (filterWindow none none
          [⟨0, 1, 100⟩, ⟨1, 0, 110⟩])).trades ++
          [⟨(processBars 0 (initState 1000) (filterWindow none none
              [⟨0, 1, 100⟩, ⟨1, 0, 110⟩])).entryTime,
            1,
            (processBars 0 (initState 1000) (filterWindow none none
              [⟨0, 1, 100⟩, ⟨1, 0, 110⟩])).entryPrice,
            110,
            tradeReturn (processBars 0 (initState 1000) (filterWindow none none
              [⟨0, 1, 100⟩, ⟨1, 0, 110⟩])).entryPrice 110 0, true⟩] ∧
      (btRun none none 0 1000 [⟨0, 1, 100⟩, ⟨1, 0, 110⟩]).trades.countP
        (fun t => t.forced) = 1 :=
  have h := c4_forced_close none none 0 1000 [⟨0, 1, 100⟩, ⟨1, 0, 110⟩]
    ⟨1, 0, 110⟩ rfl rfl
  ⟨rfl, h.1, h.2.1⟩

/-- Processing bars that all carry a buy signal from a long state changes
nothing but the appended equity marks. -/
theorem processBars_long_hold (c : ℚ) (rs : List Row) :
    ∀ s : BTState, s.position = 1 → (∀ r ∈ rs, r.signal = 1) →
      (processBars c s rs).position = 1 ∧
      (processBars c s rs).entryPrice = s.entryPrice ∧
      (processBars c s rs).capital = s.capital ∧
      (processBars c s rs).trades = s.trades := by
  induction rs with
  | nil => intro s hp _; exact ⟨hp, rfl, rfl, rfl⟩
  | cons r rs ih =>
    intro s hp hall
    have h1 : r.signal = 1 := hall r (List.mem_cons_self r rs)
    have hb : ¬ (r.signal = 1 ∧ s.position = 0) := by
      rintro ⟨_, h0⟩; rw [hp] at h0; exact absurd h0 (by decide)
    have hs2 : ¬ (r.signal = -1 ∧ s.position = 1) := by
      rintro ⟨hm, _⟩; rw [h1] at hm; exact absurd hm (by decide)
    rw [processBars_cons, stepBar_skip_eq c s r hb hs2]
    exact ih _ hp (fun x hx => hall x (List.mem_cons_of_mem r hx))

/-- Filtering the window keeps only rows of the original frame. -/
theorem filterWindow_subset (sd ed : Option ℤ) (rows : List Row) :
    ∀ r ∈ filterWindow sd ed rows, r ∈ rows := by
  intro r hr
  cases sd with
  | none =>
    cases ed with
    | none => exact hr
    | some e => exact (List.mem_filter.mp hr).1
  | some sdv =>
    cases ed with
    | none => exact (List.mem_filter.mp hr).1
    | some e =>
      have h1 := (List.mem_filter.mp hr).1
      exact (List.mem_filter.mp h1).1

/-- Every row produced by the Buy-and-Hold strategy carries signal 1, also
after window filtering. -/
theorem filterWindow_buyAndHold_signal (sd ed : Option ℤ) (bars : List Bar) :
    ∀ r ∈ filterWindow sd ed (buyAndHoldSignals bars), r.signal = 1 := by
  intro r hr
  have hsub : r ∈ buyAndHoldSignals bars := filterWindow_subset sd ed _ r hr
  simp only [buyAndHoldSignals, List.mem_map] at hsub
  obtain ⟨b, _, hb⟩ := hsub
  rw [← hb]

/-- C5: Buy-and-Hold with zero commission over a nonempty window turns the
initial capital into `initial × (last close / first close)`: the engine
buys at the first window bar's close and force-closes at the last one. -/
theorem c5_buy_and_hold_conservation (sd ed : Option ℤ) (cap0 : ℚ) (bars : List Bar)
    (r0 rN : Row)
    (hh : (filterWindow sd ed (buyAndHoldSignals bars)).head? = some r0)
    (hl : (filterWindow sd ed (buyAndHoldSignals bars)).getLast? = some rN)
    (h0 : r0.close ≠ 0) :
    (btRun sd ed 0 cap0 (buyAndHoldSignals bars)).capital =
      cap0 * (rN.close / r0.close) := by
  have hall := filterWindow_buyAndHold_signal sd ed bars
  obtain ⟨rest, hcons⟩ : ∃ rest,
      filterWindow sd ed (buyAndHoldSignals bars) = r0 :: rest := by
    cases hrows : filterWindow sd ed (buyAndHoldSignals bars) with
    | nil => rw [hrows] at hh; simp at hh
    | cons a t =>
      rw [hrows] at hh
      simp only [List.head?_cons, Option.some.injEq] at hh
      exact ⟨t, by rw [hh]⟩
  have hstep : stepBar 0 (initState cap0) r0 =
      ⟨1, r0.close, some r0.time, cap0, [], [cap0]⟩ := by
    rw [stepBar_buy_eq 0 (initState cap0) r0
      (hall r0 (hcons ▸ List.mem_cons_self r0 rest)) rfl]
    rfl
  have hloop := processBars_long_hold 0 rest (stepBar 0 (initState cap0) r0)
    (by rw [hstep]) (fun x hx => hall x (hcons ▸ List.mem_cons_of_mem r0 hx))
  simp only [btRun]
  rw [hcons, processBars_cons]
  have hpos : (processBars 0 (stepBar 0 (initState cap0) r0) rest).position = 1 :=
    hloop.1
  have hlast : (r0 :: rest).getLast? = some rN := by rw [← hcons]; exact hl
  rw [forceClose_eq 0 (r0 :: rest) _ rN hpos hlast]
  show (processBars 0 (stepBar 0 (initState cap0) r0) rest).capital *
      (1 + tradeReturn
        (processBars 0 (stepBar 0 (initState cap0) r0) rest).entryPrice rN.close 0) =
      cap0 * (rN.close / r0.close)
  rw [hloop.2.2.1, hloop.2.1, hstep]
  show cap0 * (1 + tradeReturn r0.close rN.close 0) = cap0 * (rN.close / r0.close)
  have htr : tradeReturn r0.close rN.close 0 = (rN.close - r0.close) / r0.close := by
    simp [tradeReturn]
  rw [htr]
  field_simp

/-- Witness for C5: two bars at closes 100 and 150 multiply the capital by
150/100. -/
theorem c5_buy_and_hold_conservation_witness :
    (btRun none none 0 1000 (buyAndHoldSignals [⟨0, 100⟩, ⟨1, 150⟩])).capital =
      1000 * ((150 : ℚ) / 100) :=
  c5_buy_and_hold_conservation none none 1000 [⟨0, 100⟩, ⟨1, 150⟩]
    ⟨0, 1, 100⟩ ⟨1, 1, 150⟩ rfl rfl (by norm_num)

/-- C6 counterexample: a zero-commission run with three trades and one
winner computes `win_rate = 100/3`, but the *reported* win rate is
`round(33.33..., 2) = 33.33 ≠ 100/3`: the results dictionary rounds at two
decimals. -/
theorem c6_win_rate_counterexample :
    (mkResults 1000 (btRun none none 0 1000
        [⟨0, 1, 100⟩, ⟨1, -1, 110⟩, ⟨2, 1, 110⟩, ⟨3, -1, 100⟩,
         ⟨4, 1, 100⟩, ⟨5, -1, 90⟩])).winRate ≠
      (((btRun none none 0 1000
        [⟨0, 1, 100⟩, ⟨1, -1, 110⟩, ⟨2, 1, 110⟩, ⟨3, -1, 100⟩,
         ⟨4, 1, 100⟩, ⟨5, -1, 90⟩]).trades.filter (fun t => 0 < t.ret)).length : ℚ) /
        ((btRun none none 0 1000
          [⟨0, 1, 100⟩, ⟨1, -1, 110⟩, ⟨2, 1, 110⟩, ⟨3, -1, 100⟩,
           ⟨4, 1, 100⟩, ⟨5, -1, 90⟩]).trades.length) * 100 := by
  have hrun : btRun none none 0 1000
      [⟨0, 1, 100⟩, ⟨1, -1, 110⟩, ⟨2, 1, 110⟩, ⟨3, -1, 100⟩,
       ⟨4, 1, 100⟩, ⟨5, -1, 90⟩] =
      ⟨0, 100, some 4, 900,
        [⟨some 0, 1, 100, 110, 1/10, false⟩, ⟨some 2, 3, 110, 100, -1/11, false⟩,
         ⟨some 4, 5, 100, 90, -1/10, false⟩],
        [1000, 1100, 1100, 1000, 1000, 900]⟩ := by
    norm_num [btRun, filterWindow, processBars, List.foldl, stepBar, tradeReturn,
      forceClose, initState, setLast]
  rw [hrun]
  have hfil : ([⟨some 0, 1, 100, 110, 1/10, false⟩,
      ⟨some 2, 3, 110, 100, -1/11, false⟩,
      ⟨some 4, 5, 100, 90, -1/10, false⟩] : List Trade).filter
        (fun t => 0 < t.ret) = [⟨some 0, 1, 100, 110, 1/10, false⟩] := by
    norm_num [List.filter]
  have hwr : winRateOf ⟨0, 100, some 4, 900,
      [⟨some 0, 1, 100, 110, 1/10, false⟩, ⟨some 2, 3, 110, 100, -1/11, false⟩,
       ⟨some 4, 5, 100, 90, -1/10, false⟩],
      [1000, 1100, 1100, 1000, 1000, 900]⟩ = 100/3 := by
    rw [winRateOf, if_pos (by norm_num)]
    rw [hfil]
    norm_num
  show round2 (winRateOf _) ≠ _
  rw [hwr, hfil]
  show ((round ((100 : ℚ) / 3 * 100) : ℤ) : ℚ) / 100 ≠ _
  norm_num
  intro h
  have h2 : ((round ((100 : ℚ) / 3 * 100) : ℤ) : ℚ) * 3 = 10000 := by
    field_simp at h
    linarith
  have h3 : (round ((100 : ℚ) / 3 * 100) : ℤ) * 3 = 10000 := by exact_mod_cast h2
  omega

/-- C6 amended: with no trades the reported win rate is exactly 0 and the
division is guarded away; with trades, the computed `win_rate` equals
`winners / trade_count × 100`, and the results dictionary reports it
rounded at two decimals. -/
theorem c6_win_rate_amended (sd ed : Option ℤ) (c cap0 : ℚ) (rows : List Row) :
    ((btRun sd ed c cap0 rows).trades.length = 0 →
      (mkResults cap0 (btRun sd ed c cap0 rows)).winRate = 0) ∧
      (0 < (btRun sd ed c cap0 rows).trades.length →
        winRateOf (btRun sd ed c cap0 rows) =
          (((btRun sd ed c cap0 rows).trades.filter
            (fun t => 0 < t.ret)).length : ℚ) /
            ((btRun sd ed c cap0 rows).trades.length) * 100 ∧
        (mkResults cap0 (btRun sd ed c cap0 rows)).winRate =
          round2 (winRateOf (btRun sd ed c cap0 rows))) := by
  constructor
  · intro h
    simp [mkResults, winRateOf, h, round2]
  · intro h
    refine ⟨?_, rfl⟩
    rw [winRateOf, if_pos h]

/-- Witness for the amended C6: the empty run reports win rate 0, and the
one-trade run satisfies the division formula. -/
theorem c6_win_rate_amended_witness :
    (mkResults 1000 (btRun none none 0 1000 [])).winRate = 0 ∧
      (winRateOf (btRun none none 0 1000 [⟨0, 1, 3⟩, ⟨1, -1, 4⟩]) =
        (((btRun none none 0 1000 [⟨0, 1, 3⟩, ⟨1, -1, 4⟩]).trades.filter
          (fun t => 0 < t.ret)).length : ℚ) /
          ((btRun none none 0 1000 [⟨0, 1, 3⟩, ⟨1, -1, 4⟩]).trades.length) * 100 ∧
        (mkResults 1000 (btRun none none 0 1000 [⟨0, 1, 3⟩, ⟨1, -1, 4⟩])).winRate =
          round2 (winRateOf (btRun none none 0 1000 [⟨0, 1, 3⟩, ⟨1, -1, 4⟩]))) :=
  ⟨(c6_win_rate_amended none none 0 1000 []).1 rfl,
   (c6_win_rate_amended none none 0 1000 [⟨0, 1, 3⟩, ⟨1, -1, 4⟩]).2 (by decide)⟩

/-- The summary dictionary returned by `RegimeDetector.get_current_regime`. -/
structure RegimeSummary where
  time : ℤ
  regime : Regime
  price : ℚ
  sma200 : Option ℚ
  adx : Option ℚ
  warning : Option String
deriving DecidableEq, Repr

/-- pandas_ta `ta.bbands(close, length=20, std=2.0)` as seen by the caller:
the library validates its input with `verify_series(close, length)` and
returns `None` whenever fewer than 20 bars are available; otherwise it
returns a frame whose bandwidth column `BBB_20_2.0` is external numeric
data, passed here as `bandwidth`. -/
def taBBands (closes : List ℚ) (bandwidth : List (Option ℚ)) :
    Option (List (Option ℚ)) :=
  if closes.length < 20 then none else some bandwidth

/-- `RegimeDetector.get_current_regime`: classify the history, take the
last row, compute the ADX slope (only when more than two bars exist), set
the breakout warning, then read `ta.bbands(...).columns` — with no `None`
guard, so a history shorter than 20 bars raises `AttributeError` — and let
the squeeze warning overwrite the breakout warning. The source interpolates
the bandwidth value into the squeeze message; the model keeps the constant
prefix. -/
def getCurrentRegime (df : List BarInd) (bandwidth : List (Option ℚ)) :
    Except String RegimeSummary :=
  match df.getLast? with
  | none => Except.error "IndexError: single positional indexer is out of bounds"
  | some last =>
    let lastRegime := ((detectRegime df).getLast?).getD Regime.Unknown
    let adxSlope : Option ℚ :=
      if h : 2 < df.length then
        nanSub last.adx (df.get ⟨df.length - 2, by omega⟩).adx
      else some 0
    let warning1 : Option String :=
      if nanLt last.adx (some 20) && nanGt adxSlope (some (1/2)) then
        some "Potential Breakout (ADX Rising from Low)"
      else none
    match taBBands (df.map (fun b => b.close)) bandwidth with
    | none => Except.error "AttributeError: NoneType object has no attribute columns"
    | some bw =>
      let lastBandwidth := (bw.getLast?).getD none
      let warning2 : Option String :=
        if nanLt lastBandwidth (some 5) then some "Volatility Squeeze" else warning1
      Except.ok ⟨last.time, lastRegime, last.close, last.sma200, last.adx, warning2⟩

/-- C7 (bug evaluation): on a five-bar history — and likewise on a
single-bar history — `get_current_regime` does not return a warning-free
summary; it raises, because `ta.bbands` returns `None` for fewer than 20
bars and the code reads `.columns` from it without the guard it applies to
`ta.adx`. -/
theorem c7_short_history_warning_bug (bandwidth : List (Option ℚ)) :
    getCurrentRegime
        [⟨0, 1, none, none⟩, ⟨1, 2, none, none⟩, ⟨2, 3, none, none⟩,
         ⟨3, 4, none, none⟩, ⟨4, 5, none, none⟩] bandwidth =
      Except.error "AttributeError: NoneType object has no attribute columns" ∧
      getCurrentRegime [⟨0, 1, none, none⟩] bandwidth =
        Except.error "AttributeError: NoneType object has no attribute columns" :=
  ⟨rfl, rfl⟩

/-- pandas_ta `ta.sma(close, length=p)` column: at index `i` the mean of
the `p` closes ending there, undefined over the `p - 1` warm-up bars. -/
def smaAt (closes : List ℚ) (p i : ℕ) : Option ℚ :=
  if p ≤ i + 1 then some (((closes.drop (i + 1 - p)).take p).sum / p) else none

/-- The full SMA column over a series. -/
def smaColumn (closes : List ℚ) (p : ℕ) : List (Option ℚ) :=
  (List.range closes.length).map (smaAt closes p)

/-- pandas_ta `ta.sma` as seen by the caller: `verify_series(close, p)`
returns `None` whenever the series is shorter than the window. -/
def taSma (closes : List ℚ) (p : ℕ) : Option (List (Option ℚ)) :=
  if closes.length < p then none else some (smaColumn closes p)

/-- Column access; out-of-range (pandas `shift`) reads are NaN. -/
def colGet (col : List (Option ℚ)) (i : ℕ) : Option ℚ := (col[i]?).getD none

/-- The crossover masks of `SMACrossover.generate_signals` at bar `i`:
bullish where fast is above slow and the shifted (previous-bar) fast was at
or below the shifted slow, bearish symmetrically; `shift(1)` is NaN at the
first bar, and every comparison involving NaN is false. The signal column
starts at 0; the bullish mask writes 1, then the bearish mask writes -1. -/
def signalAt (f s : List (Option ℚ)) (i : ℕ) : ℤ :=
  let fPrev := if i = 0 then none else colGet f (i - 1)
  let sPrev := if i = 0 then none else colGet s (i - 1)
  let bullish := nanGt (colGet f i) (colGet s i) && nanLe fPrev sPrev
  let bearish := nanLt (colGet f i) (colGet s i) && nanGe fPrev sPrev
  if bearish then -1 else if bullish then 1 else 0

/-- `SMACrossover.generate_signals`: compute both SMA columns with the
external library, then compare them row-wise. When either `ta.sma` call
returns `None` (series shorter than that window), the assignment
`df["sma_..."] = None` leaves an object-dtype column of `None` and the
comparison `df["sma_fast"] > df["sma_slow"]` raises `TypeError` — the
numeric coercion that `regime_detector.py` applies for exactly this reason
is missing here. -/
def smaCrossoverSignals (fast slow : ℕ) (closes : List ℚ) :
    Except String (List ℤ) :=
  match taSma closes fast, taSma closes slow with
  | some f, some s => Except.ok ((List.range closes.length).map (signalAt f s))
  | _, _ => Except.error "TypeError: unsupported comparison with NoneType"

/-- C9 (bug evaluation): the default SMA crossover (50/200) raises on a
100-bar history instead of yielding all-0 signals, because `ta.sma` returns
`None` for the 200-bar window; on a history long enough for both windows
(2/5 over six bars) every warm-up bar — and every bar whose shifted
comparison involves an undefined value — correctly gets signal 0. -/
theorem c9_warmup_signals_bug :
    smaCrossoverSignals 50 200 (List.replicate 100 1) =
      Except.error "TypeError: unsupported comparison with NoneType" ∧
      smaCrossoverSignals 2 5 [1, 2, 3, 4, 5, 6] =
        Except.ok [0, 0, 0, 0, 0, 0] := by
  constructor
  · rfl
  · norm_num [smaCrossoverSignals, taSma, smaColumn, smaAt, signalAt, colGet,
      nanGt, nanLt, nanLe, nanGe, List.range_succ]
